import Mathlib

/-!
Verification development for the rSearch arXiv client
(`src/arxiv/client.ts`, `src/arxiv/query.ts`): a shallow embedding of the
request-orchestration engine (identifier normalization, safe output paths,
query building, retry classification and backoff, two-tier caching, and the
pagination loop of `ArxivClient.search`), together with theorems settling
the spec claims about it.
-/

namespace RSearch

/-! ## Character classes and elementary string operations

The source manipulates JavaScript strings with regexes; we embed strings as
`List Char` and model each regex replacement as an explicit function. -/

/-- Characters matched by the JavaScript whitespace class, shared by
`String.prototype.trim` and the `\s` regex class used in the source
(space, tab, line feed, carriage return, vertical tab, form feed,
no-break space, BOM, line separator, paragraph separator). -/
def isJsWhitespace (c : Char) : Bool :=
  c = ' ' || c = '\t' || c = '\n' || c = '\r' || c = '\x0B' || c = '\x0C' ||
  c = '\u00A0' || c = '\uFEFF' || c = '\u2028' || c = '\u2029'

/-- JavaScript line terminators (relevant because `.` in a regex does not
match them). -/
def isLineTerminator (c : Char) : Bool :=
  c = '\n' || c = '\r' || c = '\u2028' || c = '\u2029'

/-- `String.prototype.trim`: drop JS whitespace from both ends. -/
def trimChars (l : List Char) : List Char :=
  ((l.dropWhile isJsWhitespace).reverse.dropWhile isJsWhitespace).reverse

/-- ASCII lower-casing, used to model case-insensitive (`/i`) regexes. -/
def toLowerAscii (c : Char) : Char :=
  if 'A' ≤ c ∧ c ≤ 'Z' then Char.ofNat (c.toNat + 32) else c

/-- Anchored case-insensitive literal match: if `l` begins with `pat`
(ASCII case-insensitively) drop that head, else return `l` unchanged.
Models `replace(/^lit/i, "")` for a literal pattern `lit`. -/
def dropHeadCI (pat : List Char) (l : List Char) : List Char :=
  if (l.take pat.length).map toLowerAscii = pat then l.drop pat.length else l

/-- The eight concrete expansions of the anchored regex
`/^https?:\/\/(?:www\.)?arxiv\.org\/(?:abs|pdf)\//i`; at most one of them
can match the head of any given string. -/
def arxivUrlHeads : List (List Char) :=
  [ "http://arxiv.org/abs/".data,
    "http://arxiv.org/pdf/".data,
    "http://www.arxiv.org/abs/".data,
    "http://www.arxiv.org/pdf/".data,
    "https://arxiv.org/abs/".data,
    "https://arxiv.org/pdf/".data,
    "https://www.arxiv.org/abs/".data,
    "https://www.arxiv.org/pdf/".data ]

/-- Models `replace(/^https?:\/\/(?:www\.)?arxiv\.org\/(?:abs|pdf)\//i, "")`. -/
def dropArxivUrlHead (l : List Char) : List Char :=
  match arxivUrlHeads.find? (fun p => (l.take p.length).map toLowerAscii = p) with
  | some p => l.drop p.length
  | none => l

/-- Models `replace(/[?#].*$/, "")`: the first `?` or `#` that is followed by
no line terminator starts the match (which, `.*$` being anchored without the
multiline flag, necessarily extends to the end of the string), and the match
is removed; a `?`/`#` followed somewhere by a line terminator cannot match. -/
def dropQueryFragment : List Char → List Char
  | [] => []
  | c :: rest =>
    if (c = '?' || c = '#') && rest.all (fun d => !(isLineTerminator d)) then []
    else c :: dropQueryFragment rest

/-- Models `replace(/\.pdf$/i, "")` (a single anchored removal). -/
def dropPdfSuffix (l : List Char) : List Char :=
  if 4 ≤ l.length ∧ (l.drop (l.length - 4)).map toLowerAscii = ".pdf".data then
    l.take (l.length - 4)
  else l

/-- Models `replace(/\/+$/, "")`: remove the maximal trailing run of `/`. -/
def dropTrailingSlashes (l : List Char) : List Char :=
  (l.reverse.dropWhile (fun c => c = '/')).reverse

/-- Models `replace(/^\/+/, "")`: remove the maximal leading run of `/`. -/
def dropLeadingSlashes (l : List Char) : List Char :=
  l.dropWhile (fun c => c = '/')

/-- Models `replace(/\s+/g, "")`: remove every whitespace character. -/
def removeWhitespace (l : List Char) : List Char :=
  l.filter (fun c => !(isJsWhitespace c))

/-- `normalizeArxivId` from `src/arxiv/client.ts`: trim, strip an `arxiv:`
scheme, strip an `arxiv.org` abs/pdf URL head, strip query/fragment, strip a
trailing `.pdf`, strip trailing and leading slashes, remove all whitespace,
applied in exactly the order of the source's regex chain. -/
def normalizeArxivId (s : String) : String :=
  let l0 := trimChars s.data
  let l1 := dropHeadCI "arxiv:".data l0
  let l2 := dropArxivUrlHead l1
  let l3 := dropQueryFragment l2
  let l4 := dropPdfSuffix l3
  let l5 := dropTrailingSlashes l4
  let l6 := dropLeadingSlashes l5
  String.mk (removeWhitespace l6)

/-- The character class `[A-Za-z0-9._-]` of `toSafeFileStem`. -/
def isSafeStemChar (c : Char) : Bool :=
  ('A' ≤ c && c ≤ 'Z') || ('a' ≤ c && c ≤ 'z') || ('0' ≤ c && c ≤ '9') ||
  c = '.' || c = '_' || c = '-'

/-- The `stem` local of `toSafeFileStem`: the normalized identifier with
every character outside `[A-Za-z0-9._-]` replaced by `_`. -/
def safeStemRaw (id : String) : String :=
  String.mk ((normalizeArxivId id).data.map
    (fun c => if isSafeStemChar c then c else '_'))

/-- `toSafeFileStem` from `src/arxiv/client.ts`: normalize, replace every
character outside `[A-Za-z0-9._-]` with `_`, and fall back to `"paper"`
when the result is empty (`stem || "paper"`). -/
def toSafeFileStem (id : String) : String :=
  if safeStemRaw id = "" then "paper" else safeStemRaw id

/-! ## POSIX path resolution

`download` computes `resolve(outputDir, filename)` with Node's
`path.resolve`.  We model a resolved path as its list of segments: split the
joined input on `/`, then normalize, dropping empty and `.` segments and
letting `..` pop the previous segment (the resolved path is always absolute,
so excess `..` at the root is dropped). -/

/-- Split a path into its `/`-separated segments. -/
def splitSegs : List Char → List (List Char)
  | [] => [[]]
  | c :: rest =>
    if c = '/' then [] :: splitSegs rest
    else
      match splitSegs rest with
      | [] => [[c]]
      | s :: ss => (c :: s) :: ss

/-- One step of segment normalization over a reversed accumulator. -/
def normStep (acc : List (List Char)) (seg : List Char) : List (List Char) :=
  if seg = [] ∨ seg = ['.'] then acc
  else if seg = ['.', '.'] then acc.tail
  else seg :: acc

/-- Normalize the segments of an absolute path (empty and `.` segments
dropped, `..` pops, excess `..` at the root dropped). -/
def normalizeAbs (segs : List (List Char)) : List (List Char) :=
  (segs.foldl normStep []).reverse

/-- Whether a path string is absolute (begins with `/`). -/
def isAbsPath (s : String) : Bool :=
  match s.data with
  | [] => false
  | c :: _ => c = '/'

/-- Node `path.resolve(dir, name)` (POSIX), as resolved segments: if `name`
is absolute it wins; else it is joined onto `dir`, itself joined onto the
current working directory `cwd` when relative; the joined segments are then
normalized. -/
def resolveSegs (cwd dir name : String) : List (List Char) :=
  let parts :=
    if isAbsPath name then [name]
    else if isAbsPath dir then [dir, name]
    else [cwd, dir, name]
  normalizeAbs ((parts.map (fun p => splitSegs p.data)).flatten)

/-- The resolved form of the output directory itself (`resolve(outputDir)`). -/
def resolveDirSegs (cwd dir : String) : List (List Char) :=
  normalizeAbs (((if isAbsPath dir then [dir] else [cwd, dir]).map
    (fun p => splitSegs p.data)).flatten)

example : resolveSegs "/w" "/out" (toSafeFileStem "../../escape" ++ ".pdf") =
    [['o', 'u', 't'], ".._.._escape.pdf".data] := by rfl
example : resolveSegs "/w" "/a/../b" "x.pdf" = ["b".data, "x.pdf".data] := by rfl

/-! ## Retry classification and backoff (`ArxivClient.requestWithRetry`)

One HTTP attempt either yields a response (with status and status text) or
throws a transport error; `isRetryableError` marks a transport error
retryable exactly when it is an `AbortError` or a `TypeError`.  The
environment is the list of outcomes the network would produce for the
successive attempts. -/

/-- The outcome the environment produces for one attempt: an HTTP response,
or a thrown transport error (`retryable` records whether
`isRetryableError` holds for it, i.e. `AbortError`/`TypeError`). -/
inductive AttemptOutcome where
  | response (status : Nat) (statusText : String)
  | thrown (retryable : Bool) (msg : String)
deriving DecidableEq, Repr

/-- Result of `requestWithRetry`: a successful response or a terminal error,
together with how many attempts were issued; `starved` marks the unreal case
of the environment providing fewer outcomes than attempts issued. -/
inductive RetryResult where
  | success (attempts : Nat)
  | error (msg : String) (attempts : Nat)
  | starved
deriving DecidableEq, Repr

/-- `shouldRetry` from `src/arxiv/client.ts`:
`status === 408 || status === 429 || status >= 500`. -/
def shouldRetry (status : Nat) : Bool :=
  status = 408 || status = 429 || 500 ≤ status

/-- `response.ok` of the Fetch API: status in the range 200–299. -/
def responseOk (status : Nat) : Bool :=
  200 ≤ status && status < 300

/-- The attempt loop of `requestWithRetry`, recursing over the outcomes the
environment supplies.  A 2xx response returns success; a non-2xx response
that is non-retryable or arrives with no budget left throws
`ResponseError` with message `"<status> <statusText>"`; a thrown transport
error that is non-retryable or arrives with no budget left is rethrown;
otherwise the loop sleeps and tries again with `attempt + 1`. -/
def retryLoop (maxRetries : Nat) : Nat → List AttemptOutcome → RetryResult
  | _, [] => .starved
  | attempt, o :: rest =>
    match o with
    | .response status statusText =>
      if responseOk status then .success (attempt + 1)
      else if !(shouldRetry status) || maxRetries ≤ attempt then
        .error (toString status ++ " " ++ statusText) (attempt + 1)
      else retryLoop maxRetries (attempt + 1) rest
    | .thrown retryable msg =>
      if !retryable || maxRetries ≤ attempt then .error msg (attempt + 1)
      else retryLoop maxRetries (attempt + 1) rest

/-- `ArxivClient.requestWithRetry` against an environment `outcomes`. -/
def requestWithRetry (maxRetries : Nat) (outcomes : List AttemptOutcome) :
    RetryResult :=
  retryLoop maxRetries 0 outcomes

/-! ## Backoff delay (`computeBackoffDelay`, `parseRetryAfter`)

Delays are rationals (JS numbers carry fractional milliseconds here);
`Math.random()` is modelled as a parameter `rand ∈ [0, 1)`. -/

/-- A pre-parsed `Retry-After` header: missing (or the empty string, which
is falsy), a finite `Number(value)` in seconds, a parseable HTTP-date as an
epoch-milliseconds timestamp, or unparseable text. -/
inductive RetryAfterHeader where
  | absent
  | numeric (seconds : ℚ)
  | httpDate (epochMs : ℚ)
  | malformed
deriving DecidableEq

/-- `parseRetryAfter` from `src/arxiv/client.ts`: a numeric value gives
`max(0, seconds * 1000)`; an HTTP-date gives its distance from now floored
at 0; anything else gives `null`. -/
def parseRetryAfter (v : RetryAfterHeader) (nowMs : ℚ) : Option ℚ :=
  match v with
  | .absent => none
  | .numeric s => some (max 0 (s * 1000))
  | .httpDate t => some (if 0 < t - nowMs then t - nowMs else 0)
  | .malformed => none

/-- `computeBackoffDelay` from `src/arxiv/client.ts`:
`min(base * 16, base * 2 ^ attempt) + floor(rand * base)`. -/
def computeBackoffDelay (baseDelayMs : ℚ) (attempt : Nat) (rand : ℚ) : ℚ :=
  min (baseDelayMs * 16) (baseDelayMs * 2 ^ attempt) +
    ((Int.floor (rand * baseDelayMs) : ℤ) : ℚ)

/-- The delay slept before a retry (line 918 of `src/arxiv/client.ts`):
`parseRetryAfter(header) ?? computeBackoffDelay(base, attempt)`. -/
def retryDelay (v : RetryAfterHeader) (nowMs baseDelayMs : ℚ) (attempt : Nat)
    (rand : ℚ) : ℚ :=
  (parseRetryAfter v nowMs).getD (computeBackoffDelay baseDelayMs attempt rand)

example :
    requestWithRetry 3 [.response 500 "Server Error", .response 200 "OK"] =
      .success 2 := by rfl
example :
    requestWithRetry 3 [.response 400 "Bad Request", .response 200 "OK"] =
      .error "400 Bad Request" 1 := by rfl
example :
    requestWithRetry 1
      [.response 429 "Too Many", .response 429 "Too Many"] =
      .error "429 Too Many" 2 := by rfl
example :
    requestWithRetry 3 [.response 999 "Nonstandard", .response 200 "OK"] =
      .success 2 := by rfl

/-! ## Query building (`src/arxiv/query.ts`)

`URLSearchParams` is modelled as an ordered association list whose `set`
replaces the value of an existing key in place and otherwise appends.  The
WHATWG `URL` object for the base URL is represented by its existing search
parameters (claims about it never touch scheme or host). -/

/-- `DEFAULT_PAGE_SIZE` from `src/arxiv/query.ts`. -/
def DEFAULT_PAGE_SIZE : Int := 100

/-- `MAX_PAGE_SIZE` from `src/arxiv/query.ts`. -/
def MAX_PAGE_SIZE : Int := 2000

/-- `MAX_TOTAL_RESULTS` from `src/arxiv/query.ts`. -/
def MAX_TOTAL_RESULTS : Int := 30000

/-- `URLSearchParams.set`: replace in place when the key exists, else
append. -/
def paramsSet (ps : List (String × String)) (k v : String) :
    List (String × String) :=
  if ps.any (fun p => p.1 = k) then
    ps.map (fun p => if p.1 = k then (k, v) else p)
  else ps ++ [(k, v)]

/-- `URLSearchParams.has`. -/
def paramsHas (ps : List (String × String)) (k : String) : Bool :=
  ps.any (fun p => p.1 = k)

/-- `URLSearchParams.get` (first value, or none). -/
def paramsGet (ps : List (String × String)) (k : String) : Option String :=
  (ps.find? (fun p => p.1 = k)).map (fun p => p.2)

/-- The options record consumed by `buildQuery` (`BuildQueryOptions`).
Numeric fields are embedded as integers; the source also rejects
non-integral numbers, a case outside this embedding's input space. -/
structure BuildOpts where
  searchQuery : Option String := none
  idList : Option (List String) := none
  start : Option Int := none
  maxResults : Option Int := none
  sortBy : Option String := none
  sortOrder : Option String := none
deriving Repr

/-- Split a string into its maximal runs of characters that are neither
whitespace nor commas — the nonempty tokens of `split(/[\s,]+/)`. -/
def splitIdTokens (l : List Char) : List (List Char) :=
  match l with
  | [] => []
  | c :: rest =>
    let tail := splitIdTokens rest
    if isJsWhitespace c || c = ',' then
      [] :: tail -- run boundary; empty chunks are filtered below
    else
      match tail with
      | [] => [[c]]
      | t :: ts => (c :: t) :: ts

/-- `normalizeList` from `src/arxiv/query.ts`: split each item on runs of
whitespace/commas, trim, and keep the non-blank tokens.  (After splitting,
tokens contain no whitespace, so the `trim` is the identity; empty chunks
produced at run boundaries are removed by the truthiness filter.) -/
def normalizeList (value : Option (List String)) : Option (List String) :=
  match value with
  | none => none
  | some items =>
    some ((items.flatMap (fun s => splitIdTokens s.data)).filterMap
      (fun t => if t = [] then none else some (String.mk t)))

/-- `buildQuery` from `src/arxiv/query.ts`, with the base URL represented by
its existing search parameters `baseParams`.  Sets `search_query` for a
non-blank trimmed query, `id_list` for a non-empty normalized list, fails
when neither ended up present, validates `start`/`maxResults`, sets the sort
parameters, and finally merges: base parameters first, then this builder's
parameters, the latter winning on conflict. -/
def buildQuery (baseParams : List (String × String)) (o : BuildOpts) :
    Except String (List (String × String)) :=
  let params0 : List (String × String) :=
    match o.searchQuery.map (fun s => String.mk (trimChars s.data)) with
    | some q => if q ≠ "" then paramsSet [] "search_query" q else []
    | none => []
  let params1 :=
    match normalizeList o.idList with
    | some ids =>
      if ids ≠ [] then
        paramsSet params0 "id_list" (String.intercalate "," ids)
      else params0
    | none => params0
  if !(paramsHas params1 "search_query") && !(paramsHas params1 "id_list") then
    .error "Provide a search query or at least one arXiv id."
  else
    match (match o.start with
      | some st =>
        if st < 0 then Except.error "start must be a non-negative integer."
        else Except.ok (paramsSet params1 "start" (toString st))
      | none => Except.ok params1) with
    | .error e => .error e
    | .ok params2 =>
      match (match o.maxResults with
        | some mr =>
          if mr < 1 then
            Except.error "maxResults must be a positive integer."
          else Except.ok (paramsSet params2 "max_results" (toString mr))
        | none => Except.ok params2) with
      | .error e => .error e
      | .ok params3 =>
        let params4 :=
          match o.sortBy with
          | some sb => paramsSet params3 "sortBy" sb
          | none => params3
        let params5 :=
          match o.sortOrder with
          | some so => paramsSet params4 "sortOrder" so
          | none => params4
        .ok (params5.foldl (fun acc p => paramsSet acc p.1 p.2)
          (baseParams.foldl (fun acc p => paramsSet acc p.1 p.2) []))

/-- The presence condition `buildQuery` checks for `search_query`: true
when no query was supplied or it is blank after trimming. -/
def queryBlank (o : BuildOpts) : Bool :=
  match o.searchQuery with
  | some s => decide (trimChars s.data = [])
  | none => true

/-- The presence condition `buildQuery` checks for `id_list`: true when no
identifier list was supplied or it normalizes to the empty list. -/
def idListEmpty (o : BuildOpts) : Bool :=
  match normalizeList o.idList with
  | some ids => decide (ids = [])
  | none => true

example :
    buildQuery [] { searchQuery := some "cat:cs.AI", maxResults := some 10 } =
      .ok [("search_query", "cat:cs.AI"), ("max_results", "10")] := by rfl
example :
    buildQuery [] { searchQuery := some "  " } =
      .error "Provide a search query or at least one arXiv id." := by rfl
example :
    buildQuery [] { searchQuery := some "cat:cs.AI",
                    idList := some ["1234.5678"] } =
      .ok [("search_query", "cat:cs.AI"), ("id_list", "1234.5678")] := by rfl
example :
    buildQuery [] { idList := some ["1234.5678, 2301.00001  9876.1"] } =
      .ok [("id_list", "1234.5678,2301.00001,9876.1")] := by rfl
example :
    buildQuery [("a", "1"), ("start", "9")]
      { searchQuery := some "q", start := some 0 } =
      .ok [("a", "1"), ("start", "0"), ("search_query", "q")] := by rfl

/-! ## Pagination (`ArxivClient.search`, `ArxivClient.fetchByIds`)

The external feed decoder (`parseAtom`) turns one response into pagination
metadata and entries; for these claims only the entry count matters, so a
decoded page is `{totalResults, startIndex, itemsPerPage, entryCount}`.
The HTTP layer is abstracted as a deterministic `provider` mapping the
`(start, max_results)` pair of an issued request to its decoded page. -/

/-- A decoded feed page: `{totalResults, startIndex, itemsPerPage}` plus
the number of entries it carried. -/
structure Page where
  totalResults : Int
  startIndex : Int
  itemsPerPage : Int
  entryCount : Nat
deriving Repr, DecidableEq

/-- `ArxivSearchOptions` with integer numeric fields. -/
structure SearchOptions where
  searchQuery : Option String := none
  idList : Option (List String) := none
  start : Option Int := none
  maxResults : Option Int := none
  pageSize : Option Int := none
  sortBy : Option String := none
  sortOrder : Option String := none
deriving Repr

/-- The `ArxivSearchResult` assembled by `search`, with entries kept as a
count, plus the trace of `(start, max_results)` pairs of the requests the
loop issued (in order). -/
structure SearchOutcome where
  query : String
  totalResults : Int
  startIndex : Int
  itemsPerPage : Int
  entryCount : Nat
  requests : List (Int × Int)
deriving Repr, DecidableEq

/-- Loop state: accumulated entry count and the first-page metadata. -/
structure SearchAcc where
  entryCount : Nat
  totalResults : Int
  resultStartIndex : Int
  itemsPerPage : Int
  requests : List (Int × Int)
deriving Repr, DecidableEq

/-- One iteration body of the `while (remaining > 0)` loop of
`ArxivClient.search`, structurally recursing on a fuel bound so that
concrete runs evaluate by `rfl`/`decide`.  Each iteration: build the page
query (whose validation can fail), fetch and decode the page, capture
`totalResults`/`startIndex`/`itemsPerPage` from the first page only
(`entries.length === 0` guard), append the page's entries, then break unless
pagination is enabled, the page was non-empty, and
`requestStartIndex + entries < totalResults`; otherwise advance the request
offset by the entries received and continue.  The fuel-exhausted branch is
unreachable whenever `remaining.toNat ≤ fuel` (each continuing iteration
decreases `remaining` by at least one entry); `searchLoopF_fuel_irrel`
below certifies that the fuel is invisible: any two sufficient fuels give
the same result. -/
def searchLoopF (provider : Int → Int → Page) (opts : SearchOptions)
    (baseParams : List (String × String)) (fetchAll : Bool) (pageSize : Int) :
    Nat → Int → Int → SearchAcc → Except String SearchAcc
  | fuel, requestStart, remaining, acc =>
    if remaining ≤ 0 then .ok acc
    else
      let batch := min pageSize remaining
      match buildQuery baseParams
          { searchQuery := opts.searchQuery, idList := opts.idList,
            start := some requestStart, maxResults := some batch,
            sortBy := opts.sortBy, sortOrder := opts.sortOrder } with
      | .error e => .error e
      | .ok _ =>
        match provider requestStart batch with
        | ⟨ptotal, pstart, pitems, pcount⟩ =>
          let acc1 :=
            if acc.entryCount = 0 then
              { acc with totalResults := ptotal,
                         resultStartIndex := pstart,
                         itemsPerPage := pitems }
            else acc
          let acc2 :=
            { acc1 with entryCount := acc1.entryCount + pcount,
                        requests := acc1.requests ++ [(requestStart, batch)] }
          if !fetchAll then .ok acc2
          else if pcount = 0 then .ok acc2
          else if ptotal ≤ requestStart + pcount then .ok acc2
          else
            match fuel with
            | 0 => .ok acc2
            | fuel' + 1 =>
              searchLoopF provider opts baseParams fetchAll pageSize
                fuel' (requestStart + pcount) (remaining - pcount) acc2

/-- The `while (remaining > 0)` loop of `ArxivClient.search`. -/
def searchLoop (provider : Int → Int → Page) (opts : SearchOptions)
    (baseParams : List (String × String)) (fetchAll : Bool) (pageSize : Int)
    (requestStart remaining : Int) (acc : SearchAcc) :
    Except String SearchAcc :=
  searchLoopF provider opts baseParams fetchAll pageSize
    remaining.toNat requestStart remaining acc

/-- The page size `search` resolves (explicit option, else the client
default; the `|| DEFAULT_PAGE_SIZE` falsy fallback of the source). -/
def resolvedPageSize (cfgPageSize : Int) (opts : SearchOptions) : Int :=
  let requested := opts.pageSize.getD cfgPageSize
  if requested = 0 then DEFAULT_PAGE_SIZE else requested

/-- The `maxResults` value `search` resolves (explicit option, else the
resolved page size). -/
def resolvedMaxResults (cfgPageSize : Int) (opts : SearchOptions) : Int :=
  opts.maxResults.getD (resolvedPageSize cfgPageSize opts)

/-- The start offset `search` resolves (explicit option, else 0). -/
def resolvedStart (opts : SearchOptions) : Int :=
  opts.start.getD 0

/-- Whether `search` enables pagination: the caller supplied an explicit
`maxResults` and it exceeds the resolved page size. -/
def resolvedFetchAll (cfgPageSize : Int) (opts : SearchOptions) : Bool :=
  opts.maxResults.isSome &&
    decide (resolvedPageSize cfgPageSize opts < resolvedMaxResults cfgPageSize opts)

/-- `ArxivClient.search`: validate the paging arguments, then run the
pagination loop from `{entries = 0, totalResults = 0,
resultStartIndex = start, itemsPerPage = pageSize}` and assemble the
result, whose `startIndex` is the loop's `resultStartIndex`. -/
def search (cfgPageSize : Int) (opts : SearchOptions)
    (provider : Int → Int → Page) (baseParams : List (String × String)) :
    Except String SearchOutcome :=
  let requestedPageSize := opts.pageSize.getD cfgPageSize
  if requestedPageSize < 1 then .error "pageSize must be a positive integer."
  else if MAX_PAGE_SIZE < requestedPageSize then
    .error "pageSize cannot exceed 2000."
  else
    let pageSize := resolvedPageSize cfgPageSize opts
    let maxResults := resolvedMaxResults cfgPageSize opts
    if maxResults < 1 then .error "maxResults must be a positive integer."
    else if MAX_TOTAL_RESULTS < maxResults then
      .error "maxResults cannot exceed 30000."
    else
      let start := resolvedStart opts
      if start < 0 then .error "start must be a non-negative integer."
      else
        let fetchAll := resolvedFetchAll cfgPageSize opts
        match searchLoop provider opts baseParams fetchAll pageSize
            start maxResults
            { entryCount := 0, totalResults := 0, resultStartIndex := start,
              itemsPerPage := pageSize, requests := [] } with
        | .error e => .error e
        | .ok acc =>
          .ok { query := opts.searchQuery.getD "",
                totalResults := acc.totalResults,
                startIndex := acc.resultStartIndex,
                itemsPerPage := acc.itemsPerPage,
                entryCount := acc.entryCount,
                requests := acc.requests }

/-- `normalizeRequiredIds` from `src/arxiv/client.ts`: normalize every
identifier and throw when any normalizes to the empty string. -/
def normalizeRequiredIds (ids : List String) : Except String (List String) :=
  let normalized := ids.map normalizeArxivId
  if normalized.any (fun id => id = "") then
    .error "Invalid arXiv ID in id list."
  else .ok normalized

/-- `ArxivClient.fetchByIds`: an empty list validates the paging arguments
and returns an empty result with no request; otherwise the identifiers are
normalized (throwing on an invalid one) and handed to `search` with
`maxResults` defaulting to the number of identifiers. -/
def fetchByIds (cfgPageSize : Int) (ids : List String) (opts : SearchOptions)
    (provider : Int → Int → Page) (baseParams : List (String × String)) :
    Except String SearchOutcome :=
  if ids = [] then
    let requestedPageSize := opts.pageSize.getD cfgPageSize
    if requestedPageSize < 1 then .error "pageSize must be a positive integer."
    else if MAX_PAGE_SIZE < requestedPageSize then
      .error "pageSize cannot exceed 2000."
    else
      match opts.maxResults with
      | some mr =>
        if mr < 1 then .error "maxResults must be a positive integer."
        else if MAX_TOTAL_RESULTS < mr then
          .error "maxResults cannot exceed 30000."
        else
          let start := opts.start.getD 0
          if start < 0 then .error "start must be a non-negative integer."
          else .ok { query := "", totalResults := 0, startIndex := start,
                     itemsPerPage := 0, entryCount := 0, requests := [] }
      | none =>
        let start := opts.start.getD 0
        if start < 0 then .error "start must be a non-negative integer."
        else .ok { query := "", totalResults := 0, startIndex := start,
                   itemsPerPage := 0, entryCount := 0, requests := [] }
  else
    match normalizeRequiredIds ids with
    | .error e => .error e
    | .ok normalizedIds =>
      let maxResults := opts.maxResults.getD (normalizedIds.length : Int)
      search cfgPageSize
        { opts with idList := some normalizedIds, maxResults := some maxResults }
        provider baseParams

example :
    search 100 { searchQuery := some "q", pageSize := some 2,
                 maxResults := some 4 }
      (fun s b => ⟨100, s, b, b.toNat⟩) [] =
    .ok { query := "q", totalResults := 100, startIndex := 0,
          itemsPerPage := 2, entryCount := 4,
          requests := [(0, 2), (2, 2)] } := by rfl

example :
    search 100 { searchQuery := some "q", pageSize := some 2,
                 maxResults := some 10 }
      (fun s b => ⟨3, s, b, (min b (3 - s)).toNat⟩) [] =
    .ok { query := "q", totalResults := 3, startIndex := 0,
          itemsPerPage := 2, entryCount := 3,
          requests := [(0, 2), (2, 2)] } := by rfl

example :
    fetchByIds 100 [] { start := some 5 } (fun s b => ⟨9, s, b, 1⟩) [] =
    .ok { query := "", totalResults := 0, startIndex := 5,
          itemsPerPage := 0, entryCount := 0, requests := [] } := by rfl

example :
    fetchByIds 100 ["1234.5678", "   "] {} (fun s b => ⟨9, s, b, 1⟩) [] =
    .error "Invalid arXiv ID in id list." := by rfl

/-! ## Two-tier cache (`ArxivClient.request`, `readDiskCache`,
`writeDiskCache`)

The in-memory `Map` is an association list; disk I/O and the network are
abstracted as an environment: `disk` is the combined `stat` + `readFile`
probe for a cache filename (an `Except` error models any read failure,
including a missing file), `write` is the combined `mkdir` + `writeFile`
outcome, and `network` is `requestWithRetry` followed by `response.text()`.
The SHA-256 of `node:crypto` is an external primitive, abstracted as the
key-derivation parameter `hash`. -/

/-- What the disk knows about one cache file: its modification time and
contents. -/
structure DiskEntry where
  mtimeMs : Int
  content : String
deriving Repr, DecidableEq

/-- The I/O environment one `request` call runs against. -/
structure RequestEnv where
  disk : String → Except String DiskEntry
  write : Except String Unit
  network : Except String String
  nowMs : Int

/-- The cache-relevant part of `ArxivClientConfig`. -/
structure CacheConfig where
  cache : Bool
  cacheDir : Option String
  cacheTtlMs : Option Int
deriving Repr

/-- How many disk reads and network requests a `request` call performed. -/
structure RequestTrace where
  diskReads : Nat
  networkCalls : Nat
deriving Repr, DecidableEq

/-- `readDiskCache` from `src/arxiv/client.ts`: look up the file named
`hash(url)` under the cache directory; on any read failure return `null`;
when a TTL is configured and `now - mtime > ttl`, return `null`; otherwise
return the file contents. -/
def readDiskCache (url : String) (hash : String → String)
    (disk : String → Except String DiskEntry) (nowMs : Int)
    (ttlMs : Option Int) : Option String :=
  match disk (hash url) with
  | .error _ => none
  | .ok e =>
    match ttlMs with
    | some ttl => if ttl < nowMs - e.mtimeMs then none else some e.content
    | none => some e.content

/-- `ArxivClient.request` for a metadata URL: memory lookup, then disk
lookup (promoting a hit into memory), then the network; a successful
network response is stored in memory and, when a cache directory is
configured, written to disk — the source awaits `writeDiskCache` with no
try/catch, so a write failure propagates.  Returns the result, the new
memory map, and the I/O trace. -/
def request (cfg : CacheConfig) (env : RequestEnv) (hash : String → String)
    (mem : List (String × String)) (url : String) :
    Except String String × List (String × String) × RequestTrace :=
  match cfg.cache, paramsGet mem url with
  | true, some text => (.ok text, mem, ⟨0, 0⟩)
  | _, _ =>
    let diskHit :=
      if cfg.cache ∧ cfg.cacheDir.isSome then
        readDiskCache url hash env.disk env.nowMs cfg.cacheTtlMs
      else none
    let diskReads := if cfg.cache ∧ cfg.cacheDir.isSome then 1 else 0
    match diskHit with
    | some text => (.ok text, paramsSet mem url text, ⟨diskReads, 0⟩)
    | none =>
      match env.network with
      | .error e => (.error e, mem, ⟨diskReads, 1⟩)
      | .ok text =>
        let mem1 := if cfg.cache then paramsSet mem url text else mem
        if cfg.cache ∧ cfg.cacheDir.isSome then
          match env.write with
          | .error e => (.error e, mem1, ⟨diskReads, 1⟩)
          | .ok _ => (.ok text, mem1, ⟨diskReads, 1⟩)
        else (.ok text, mem1, ⟨diskReads, 1⟩)

/-! ## Download manager (`ArxivClient.download`)

Per item, the environment supplies the `fileExists` probe and the combined
outcome of `buildPdfUrl` + `requestBinary` + `mkdir` + `writeFile` (an
`Except` error models the exception the `try` block catches).  The boolean
returned beside each outcome records whether the binary fetch was
reached. -/

/-- Status of one download outcome record. -/
inductive DlStatus where
  | downloaded
  | skipped
  | failed
deriving DecidableEq, Repr

/-- One outcome record of `download` (`path` is the resolved destination,
as path segments). -/
structure DownloadOutcome where
  id : String
  path : List (List Char)
  status : DlStatus
  error : Option String
deriving DecidableEq, Repr

/-- The environment for one item of a `download` batch. -/
structure ItemEnv where
  fileExists : Bool
  fetch : Except String Unit

/-- One iteration of the `download` loop: normalize the identifier, compute
the destination `resolve(outputDir, toSafeFileStem(id) + ".pdf")`, record a
`failed`/`"Invalid arXiv ID"` outcome when the identifier normalized to the
empty string, a `skipped` outcome when the file exists and overwrite was not
requested, and otherwise fetch and write, catching any exception into a
`failed` outcome carrying its message.  The second component reports whether
the binary fetch was reached (a network call issued). -/
def downloadItem (cwd outputDir : String) (overwrite : Bool) (id : String)
    (env : ItemEnv) : DownloadOutcome × Bool :=
  let normalizedId := normalizeArxivId id
  let outputPath := resolveSegs cwd outputDir (toSafeFileStem id ++ ".pdf")
  if normalizedId = "" then
    (⟨normalizedId, outputPath, .failed, some "Invalid arXiv ID"⟩, false)
  else if env.fileExists && !overwrite then
    (⟨normalizedId, outputPath, .skipped, none⟩, false)
  else
    match env.fetch with
    | .ok _ => (⟨normalizedId, outputPath, .downloaded, none⟩, true)
    | .error msg => (⟨normalizedId, outputPath, .failed, some msg⟩, true)

/-- `ArxivClient.download`: process the identifiers strictly in order, one
outcome record per requested identifier; `env` gives each position's I/O
environment. -/
def download (cwd outputDir : String) (overwrite : Bool) (ids : List String)
    (env : Nat → ItemEnv) : List DownloadOutcome :=
  ids.enum.map (fun p => (downloadItem cwd outputDir overwrite p.2 (env p.1)).1)

/-- How many binary fetches a `download` batch issues. -/
def downloadNetworkCalls (cwd outputDir : String) (overwrite : Bool)
    (ids : List String) (env : Nat → ItemEnv) : Nat :=
  (ids.enum.filter
    (fun p => (downloadItem cwd outputDir overwrite p.2 (env p.1)).2)).length

example : normalizeArxivId "arXiv:1234.5678v1" = "1234.5678v1" := by rfl
example : normalizeArxivId "https://arxiv.org/abs/1234.5678v1" = "1234.5678v1" := by rfl
example : normalizeArxivId "1234.5678v1.pdf" = "1234.5678v1" := by rfl
example : normalizeArxivId " 1234.5678v1 " = "1234.5678v1" := by rfl
example : normalizeArxivId "1234.pdf.pdf" = "1234.pdf" := by rfl
example : normalizeArxivId "1234.pdf" = "1234" := by rfl
example : toSafeFileStem "../../escape" = ".._.._escape" := by rfl

/-! ## Stop-condition vocabulary for the pagination loop -/

/-- The condition under which the pagination loop, having fetched `page` at
request offset `rs` with `rem` results still wanted, issues another
request: pagination is enabled, the page was non-empty, the provider
reports more results beyond this page, and the caller's budget is not yet
exhausted. -/
def pageContinues (fetchAll : Bool) (rs rem : Int) (page : Page) : Prop :=
  fetchAll = true ∧ page.entryCount ≠ 0 ∧
    rs + page.entryCount < page.totalResults ∧ 0 < rem - page.entryCount

instance (fetchAll : Bool) (rs rem : Int) (page : Page) :
    Decidable (pageContinues fetchAll rs rem page) := by
  unfold pageContinues
  infer_instance

/-- A well-formed request trace of the pagination loop starting at request
offset `rs` with `rem` results still wanted: every request asks for
`min pageSize rem` results at the current offset; after every non-final
page the continue condition held; after the final page it failed — i.e.
the loop stopped exactly when pagination was disabled, the page was empty,
`requestStart + entries ≥ totalResults`, or the budget was exhausted. -/
inductive ReqTrace (P : Int → Int → Page) (fetchAll : Bool) (pageSize : Int) :
    Int → Int → List (Int × Int) → Prop
  | last (rs rem : Int) (hpos : 0 < rem)
      (hstop : ¬ pageContinues fetchAll rs rem (P rs (min pageSize rem))) :
      ReqTrace P fetchAll pageSize rs rem [(rs, min pageSize rem)]
  | step (rs rem : Int) (rest : List (Int × Int)) (hpos : 0 < rem)
      (hcont : pageContinues fetchAll rs rem (P rs (min pageSize rem)))
      (htail : ReqTrace P fetchAll pageSize
        (rs + (P rs (min pageSize rem)).entryCount)
        (rem - (P rs (min pageSize rem)).entryCount) rest) :
      ReqTrace P fetchAll pageSize rs rem ((rs, min pageSize rem) :: rest)

/-- The stop condition exactly as the spec states it (three disjuncts
only): pagination disabled, empty page, or
`requestStartIndex + lastPageEntryCount ≥ totalResults`. -/
def specStopCondition (fetchAll : Bool) (requestStart : Int) (page : Page) :
    Bool :=
  !fetchAll || (page.entryCount == 0) ||
    decide (page.totalResults ≤ requestStart + page.entryCount)

/-! ## Theorems -/

/-- C7 (counterexample): `normalizeArxivId` is not idempotent: the anchored
`\.pdf$` replacement removes only one occurrence, so `"1234.pdf.pdf"`
normalizes to `"1234.pdf"`, which a second application shortens to
`"1234"`. -/
theorem normalizeArxivId_not_idempotent :
    normalizeArxivId (normalizeArxivId "1234.pdf.pdf") ≠
      normalizeArxivId "1234.pdf.pdf" := by decide

/-- C7 (amended): the four example identifier spellings all normalize to
`"1234.5678v1"`, and that value is a fixed point of `normalizeArxivId`
(so normalization is idempotent on these inputs, though not in general). -/
theorem normalizeArxivId_examples :
    normalizeArxivId "arXiv:1234.5678v1" = "1234.5678v1" ∧
    normalizeArxivId "https://arxiv.org/abs/1234.5678v1" = "1234.5678v1" ∧
    normalizeArxivId "1234.5678v1.pdf" = "1234.5678v1" ∧
    normalizeArxivId " 1234.5678v1 " = "1234.5678v1" ∧
    normalizeArxivId "1234.5678v1" = "1234.5678v1" :=
  ⟨rfl, rfl, rfl, rfl, rfl⟩

/-- C3 (counterexample): status 999 is a non-2xx status other than 408,
429, and the 5xx range, yet `requestWithRetry` retries it
(`shouldRetry` tests `status >= 500` with no upper bound), so a 999
followed by a 200 succeeds after 2 attempts instead of failing terminally
on the first. -/
theorem requestWithRetry_999_retried :
    requestWithRetry 3 [.response 999 "Nonstandard", .response 200 "OK"] =
      .success 2 ∧
    responseOk 999 = false ∧
    ¬ (999 = 408 ∨ 999 = 429 ∨ (500 ≤ 999 ∧ 999 ≤ 599)) :=
  ⟨rfl, rfl, by decide⟩

/-- A retryable non-2xx response with budget remaining advances the loop to
the next attempt. -/
theorem retryLoop_step_retry (m a s : Nat) (t : String)
    (rest : List AttemptOutcome) (h1 : responseOk s = false)
    (h2 : shouldRetry s = true) (h3 : a < m) :
    retryLoop m a (.response s t :: rest) = retryLoop m (a + 1) rest := by
  have hm : ¬ m ≤ a := by omega
  simp [retryLoop, h1, h2, hm]

/-- Exhausting the budget on 429s: starting at attempt `a` with
`a + k = maxRetries`, `k + 1` further 429 responses end in the terminal
`ResponseError` after `maxRetries + 1` total attempts. -/
theorem retryLoop_429_exhaust (t : String) :
    ∀ (k a m : Nat), a + k = m →
      retryLoop m a (List.replicate (k + 1) (.response 429 t)) =
        .error (toString (429 : Nat) ++ " " ++ t) (m + 1) := by
  intro k
  induction k with
  | zero =>
    intro a m h
    have hm : m = a := by omega
    subst hm
    simp [retryLoop, responseOk, shouldRetry]
  | succ k ih =>
    intro a m h
    rw [List.replicate_succ,
      retryLoop_step_retry m a 429 t _ (by decide) (by decide) (by omega)]
    exact ih (a + 1) m (by omega)

/-- C3 (amended): classification of one attempt in `requestWithRetry`:
a 2xx response succeeds immediately; a non-2xx status outside
`{408, 429} ∪ [500, ∞)` fails terminally on first occurrence with message
`"<status> <statusText>"`; a status in `{408, 429} ∪ [500, ∞)` with budget
remaining retries; a 500 then a 200 gives 2 attempts and success; a 400
gives 1 attempt and a terminal error; all-429 responses give a terminal
error after exactly `maxRetries + 1` attempts. -/
theorem requestWithRetry_classification :
    (∀ (m a s : Nat) (t : String) (rest : List AttemptOutcome),
        responseOk s = true →
        retryLoop m a (.response s t :: rest) = .success (a + 1)) ∧
    (∀ (m a s : Nat) (t : String) (rest : List AttemptOutcome),
        responseOk s = false → shouldRetry s = false →
        retryLoop m a (.response s t :: rest) =
          .error (toString s ++ " " ++ t) (a + 1)) ∧
    (∀ (m a s : Nat) (t : String) (rest : List AttemptOutcome),
        responseOk s = false → shouldRetry s = true → a < m →
        retryLoop m a (.response s t :: rest) = retryLoop m (a + 1) rest) ∧
    (∀ (m : Nat) (t₁ t₂ : String), 1 ≤ m →
        requestWithRetry m [.response 500 t₁, .response 200 t₂] =
          .success 2) ∧
    (∀ (m : Nat) (t : String) (rest : List AttemptOutcome),
        requestWithRetry m (.response 400 t :: rest) =
          .error (toString (400 : Nat) ++ " " ++ t) 1) ∧
    (∀ (m : Nat) (t : String),
        requestWithRetry m (List.replicate (m + 1) (.response 429 t)) =
          .error (toString (429 : Nat) ++ " " ++ t) (m + 1)) := by
  refine ⟨?_, ?_, ?_, ?_, ?_, ?_⟩
  · intro m a s t rest h
    simp [retryLoop, h]
  · intro m a s t rest h1 h2
    simp [retryLoop, h1, h2]
  · intro m a s t rest h1 h2 h3
    have : ¬ m ≤ a := by omega
    simp [retryLoop, h1, h2, this]
  · intro m t₁ t₂ hm
    have : ¬ m ≤ 0 := by omega
    simp [requestWithRetry, retryLoop, responseOk, shouldRetry, this]
  · intro m t rest
    simp [requestWithRetry, retryLoop, responseOk, shouldRetry]
  · intro m t
    exact retryLoop_429_exhaust t m 0 m (by omega)

/-- C3 (witness): the classification applied at concrete inputs: a 204
succeeds at once; a 404 is terminal with message `"404 Not Found"`; a 503
with budget left retries; a 500 then 200 with `maxRetries = 1` succeeds in
2 attempts; a 400 is terminal in 1 attempt; two 429s with
`maxRetries = 1` end terminally after 2 attempts. -/
theorem requestWithRetry_classification_witness :
    retryLoop 3 0 [.response 204 "No Content"] = .success 1 ∧
    retryLoop 3 0 [.response 404 "Not Found"] = .error "404 Not Found" 1 ∧
    retryLoop 3 0 [.response 503 "Unavailable", .response 200 "OK"] =
      retryLoop 3 1 [.response 200 "OK"] ∧
    requestWithRetry 1 [.response 500 "Server Error", .response 200 "OK"] =
      .success 2 ∧
    requestWithRetry 2 [.response 400 "Bad Request"] =
      .error "400 Bad Request" 1 ∧
    requestWithRetry 1 (List.replicate 2 (.response 429 "Too Many")) =
      .error "429 Too Many" 2 :=
  ⟨requestWithRetry_classification.1 3 0 204 "No Content" [] (by decide),
   requestWithRetry_classification.2.1 3 0 404 "Not Found" [] (by decide)
     (by decide),
   requestWithRetry_classification.2.2.1 3 0 503 "Unavailable"
     [.response 200 "OK"] (by decide) (by decide) (by decide),
   requestWithRetry_classification.2.2.2.1 1 "Server Error" "OK" (by decide),
   requestWithRetry_classification.2.2.2.2.1 2 "Bad Request" [],
   requestWithRetry_classification.2.2.2.2.2 1 "Too Many"⟩

/-- C9 (counterexample): with `retryBaseDelayMs = 0` (a value the client
config explicitly allows), the computed backoff delay is 0, violating the
claimed strict upper bound `delay < min(b*16, b*2^a) + b`. -/
theorem computeBackoffDelay_zero_base :
    retryDelay .absent 0 0 0 0 = 0 ∧
    ¬ (retryDelay .absent 0 0 0 0 <
        min ((0 : ℚ) * 16) ((0 : ℚ) * 2 ^ (0 : Nat)) + 0) := by
  constructor
  · norm_num [retryDelay, parseRetryAfter, computeBackoffDelay]
  · norm_num [retryDelay, parseRetryAfter, computeBackoffDelay]

/-- C9 (amended): a numeric `Retry-After` of `s` seconds gives delay
`max(0, s*1000)` ms; an HTTP-date gives its distance from now floored at 0;
with no (parseable) header and base delay `b > 0`, the delay `d` satisfies
`min(b*16, b*2^a) ≤ d < min(b*16, b*2^a) + b` — exponential growth capped
at 16 times the base plus jitter in `[0, b)`.  (For `b = 0` the backoff
delay is exactly 0.) -/
theorem retryDelay_spec :
    (∀ (s now b : ℚ) (a : Nat) (r : ℚ),
        retryDelay (.numeric s) now b a r = max 0 (s * 1000)) ∧
    (∀ (t now b : ℚ) (a : Nat) (r : ℚ),
        retryDelay (.httpDate t) now b a r = max 0 (t - now)) ∧
    (∀ (now b : ℚ) (a : Nat) (r : ℚ), 0 < b → 0 ≤ r → r < 1 →
        min (b * 16) (b * 2 ^ a) ≤ retryDelay .absent now b a r ∧
        retryDelay .absent now b a r < min (b * 16) (b * 2 ^ a) + b) := by
  refine ⟨?_, ?_, ?_⟩
  · intro s now b a r
    rfl
  · intro t now b a r
    simp only [retryDelay, parseRetryAfter, Option.getD_some]
    rcases lt_or_le 0 (t - now) with h | h
    · rw [if_pos h, max_eq_right h.le]
    · rw [if_neg (not_lt.mpr h), max_eq_left h]
  · intro now b a r hb hr0 hr1
    simp only [retryDelay, parseRetryAfter, Option.getD_none,
      computeBackoffDelay]
    constructor
    · have h0 : (0 : ℚ) ≤ ((Int.floor (r * b) : ℤ) : ℚ) := by
        have : (0 : ℤ) ≤ Int.floor (r * b) :=
          Int.floor_nonneg.mpr (mul_nonneg hr0 hb.le)
        exact_mod_cast this
      linarith
    · have hfl : ((Int.floor (r * b) : ℤ) : ℚ) ≤ r * b := Int.floor_le _
      have hrb : r * b < b := by
        calc r * b < 1 * b := by
              exact mul_lt_mul_of_pos_right hr1 hb
          _ = b := one_mul b
      linarith

/-- C9 (witness): the amended bounds at `b = 500`, `a = 2`, `r = 1/2`
(delay `2000 + 250 = 2250 ∈ [2000, 2500)`), and the header cases at
concrete values. -/
theorem retryDelay_spec_witness :
    retryDelay (.numeric 3) 0 500 0 0 = 3000 ∧
    retryDelay (.httpDate 1500) 1000 500 0 0 = 500 ∧
    ((0 : ℚ) < 500 ∧ (0 : ℚ) ≤ 1 / 2 ∧ (1 / 2 : ℚ) < 1) ∧
    (min ((500 : ℚ) * 16) (500 * 2 ^ (2 : Nat)) ≤ retryDelay .absent 0 500 2 (1 / 2) ∧
      retryDelay .absent 0 500 2 (1 / 2) < min ((500 : ℚ) * 16) (500 * 2 ^ (2 : Nat)) + 500) := by
  refine ⟨?_, ?_, ⟨by norm_num, by norm_num, by norm_num⟩, ?_⟩
  · rw [retryDelay_spec.1]
    norm_num
  · rw [retryDelay_spec.2.1]
    norm_num
  · exact retryDelay_spec.2.2 0 500 2 (1 / 2) (by norm_num) (by norm_num)
      (by norm_num)

/-- C5 (counterexample): a request with a non-blank `searchQuery` and a
non-empty `idList` passes `buildQuery` validation — both parameters end up
present in the built query, refuting that exactly one must be present. -/
theorem buildQuery_accepts_both :
    buildQuery [] { searchQuery := some "cat:cs.AI",
                    idList := some ["1234.5678"] } =
      .ok [("search_query", "cat:cs.AI"), ("id_list", "1234.5678")] ∧
    paramsHas [("search_query", "cat:cs.AI"), ("id_list", "1234.5678")]
      "search_query" = true ∧
    paramsHas [("search_query", "cat:cs.AI"), ("id_list", "1234.5678")]
      "id_list" = true :=
  ⟨rfl, rfl, rfl⟩

/-- C5 (amended): `buildQuery` fails validation before any network call
unless at least one of `search_query` (non-blank trimmed query) and
`id_list` (non-empty normalized list) ends up present: both absent is a
validation error, while both present passes validation (given valid
`start`/`maxResults`). -/
theorem buildQuery_requires_query_or_ids :
    (∀ (base : List (String × String)) (o : BuildOpts),
        queryBlank o = true → idListEmpty o = true →
        buildQuery base o =
          .error "Provide a search query or at least one arXiv id.") ∧
    (∀ (base : List (String × String)) (o : BuildOpts),
        queryBlank o = false → idListEmpty o = false →
        (∀ st ∈ o.start, 0 ≤ st) → (∀ mr ∈ o.maxResults, 1 ≤ mr) →
        ∃ ps, buildQuery base o = .ok ps) := by
  constructor
  · intro base o hq hi
    rcases o with ⟨sq, il, st, mr, sb, so⟩
    have hi' := hi
    simp only [idListEmpty] at hi'
    rcases sq with _ | s
    · rcases hnl : normalizeList il with _ | ids
      · simp [buildQuery, hnl, paramsHas]
      · rw [hnl] at hi'
        have : ids = [] := by simpa using hi'
        subst this
        simp [buildQuery, hnl, paramsHas]
    · have hs : trimChars s.data = [] := by
        simpa [queryBlank] using hq
      have hq' : String.mk (trimChars s.data) = "" := by
        rw [hs]
      rcases hnl : normalizeList il with _ | ids
      · simp [buildQuery, hnl, hq', paramsHas]
      · rw [hnl] at hi'
        have : ids = [] := by simpa using hi'
        subst this
        simp [buildQuery, hnl, hq', paramsHas]
  · intro base o hq hi hst hmr
    rcases o with ⟨sq, il, st, mr, sb, so⟩
    rcases sq with _ | s
    · simp [queryBlank] at hq
    rcases hnl : normalizeList il with _ | ids
    · simp [idListEmpty, hnl] at hi
    have hids : ids ≠ [] := by
      intro h
      subst h
      simp [idListEmpty, hnl] at hi
    have hs : trimChars s.data ≠ [] := by
      simpa [queryBlank] using hq
    have hsq : ¬ (String.mk (trimChars s.data) = "") := by
      intro h
      exact hs (congrArg String.data h)
    rcases st with _ | stv <;> rcases mr with _ | mrv
    · simp [buildQuery, hnl, hsq, hids, paramsSet, paramsHas]
    · have hm : ¬ mrv < 1 := by
        have := hmr mrv (by simp)
        omega
      simp [buildQuery, hnl, hsq, hids, hm, paramsSet, paramsHas]
    · have hs0 : ¬ stv < 0 := by
        have := hst stv (by simp)
        omega
      simp [buildQuery, hnl, hsq, hids, hs0, paramsSet, paramsHas]
    · have hs0 : ¬ stv < 0 := by
        have := hst stv (by simp)
        omega
      have hm : ¬ mrv < 1 := by
        have := hmr mrv (by simp)
        omega
      simp [buildQuery, hnl, hsq, hids, hs0, hm, paramsSet, paramsHas]

/-- C5 (witness): the amended statement at concrete inputs — both
absent errors, both present (with a valid explicit `start`) succeeds. -/
theorem buildQuery_requires_query_or_ids_witness :
    buildQuery [("a", "1")] { searchQuery := some "   " } =
      .error "Provide a search query or at least one arXiv id." ∧
    ∃ ps, buildQuery [("a", "1")]
      { searchQuery := some "cat:cs.AI", idList := some ["1234.5678"],
        start := some 0, maxResults := some 10 } = .ok ps :=
  ⟨buildQuery_requires_query_or_ids.1 [("a", "1")]
      { searchQuery := some "   " } (by decide) rfl,
   buildQuery_requires_query_or_ids.2 [("a", "1")]
      { searchQuery := some "cat:cs.AI", idList := some ["1234.5678"],
        start := some 0, maxResults := some 10 }
      (by decide) (by decide) (by decide) (by decide)⟩

/-- Concatenating strings concatenates their character data. -/
theorem data_append (a b : String) : (a ++ b).data = a.data ++ b.data := rfl

/-- A string whose character data is empty is the empty string. -/
theorem eq_empty_of_data_nil (s : String) (h : s.data = []) : s = "" := by
  cases s with
  | mk d =>
    have hd : d = [] := h
    subst hd
    rfl

/-- `toSafeFileStem` returns either the placeholder or the mapped stem. -/
theorem toSafeFileStem_eq (id : String) :
    toSafeFileStem id = "paper" ∨ toSafeFileStem id = safeStemRaw id := by
  unfold toSafeFileStem
  split
  · exact Or.inl rfl
  · exact Or.inr rfl

/-- A nonempty string has nonempty character data. -/
theorem data_ne_nil_of_ne_empty (s : String) (h : s ≠ "") : s.data ≠ [] := by
  intro hd
  exact h (eq_empty_of_data_nil s hd)

/-- Characters of a `[A-Za-z0-9._-]`-sanitized list are all safe. -/
theorem safe_of_mem_raw (l : List Char) (c : Char)
    (hc : c ∈ (String.mk (l.map
      (fun c => if isSafeStemChar c then c else '_'))).data) :
    isSafeStemChar c = true := by
  simp only [List.mem_map] at hc
  obtain ⟨d, -, rfl⟩ := hc
  by_cases hd : isSafeStemChar d
  · rw [if_pos hd]
    exact hd
  · rw [if_neg hd]
    decide

/-- Every character of a safe file stem lies in `[A-Za-z0-9._-]`. -/
theorem toSafeFileStem_chars (id : String) :
    ∀ c ∈ (toSafeFileStem id).data, isSafeStemChar c = true := by
  intro c hc
  rcases toSafeFileStem_eq id with h | h <;> rw [h] at hc
  · have hp : ("paper" : String).data = ['p', 'a', 'p', 'e', 'r'] := rfl
    rw [hp] at hc
    simp only [List.mem_cons, List.not_mem_nil, or_false] at hc
    rcases hc with rfl | rfl | rfl | rfl | rfl <;> decide
  · unfold safeStemRaw at hc
    exact safe_of_mem_raw (normalizeArxivId id).data c hc

/-- The safe file stem is never the empty string. -/
theorem toSafeFileStem_ne_nil (id : String) : (toSafeFileStem id).data ≠ [] := by
  unfold toSafeFileStem
  split
  · decide
  · rename_i h
    exact data_ne_nil_of_ne_empty _ h

/-- A slash-free character list splits into a single path segment. -/
theorem splitSegs_no_slash (l : List Char) (h : ∀ c ∈ l, c ≠ '/') :
    splitSegs l = [l] := by
  induction l with
  | nil => rfl
  | cons c rest ih =>
    have hc : c ≠ '/' := h c (by simp)
    have hr : splitSegs rest = [rest] := ih (fun d hd => h d (by simp [hd]))
    simp [splitSegs, hc, hr]

/-- Appending one normal segment (not empty, `.`, or `..`) to a segment
list commutes with normalization: the segment survives as the final
component. -/
theorem normalizeAbs_snoc (xs : List (List Char)) (f : List Char)
    (h1 : f ≠ []) (h2 : f ≠ ['.']) (h3 : f ≠ ['.', '.']) :
    normalizeAbs (xs ++ [f]) = normalizeAbs xs ++ [f] := by
  unfold normalizeAbs
  rw [List.foldl_append]
  simp only [List.foldl_cons, List.foldl_nil]
  rw [show normStep (xs.foldl normStep []) f = f :: xs.foldl normStep [] by
    simp [normStep, h1, h2, h3]]
  simp

/-- C6: path containment for the download destination.  For every
identifier (including `"../../escape"`) and every output directory, the
destination `resolve(outputDir, toSafeFileStem(id) + ".pdf")` resolves to
the resolved output directory's segments followed by exactly one final
filename segment — the path never escapes the output directory, because
every character of the stem is drawn from `[A-Za-z0-9._-]` (no `/`) and
the filename, ending in `".pdf"`, is neither `.` nor `..`. -/
theorem download_path_within_outputDir (cwd dir id : String) :
    resolveSegs cwd dir (toSafeFileStem id ++ ".pdf") =
      resolveDirSegs cwd dir ++ [(toSafeFileStem id ++ ".pdf").data] := by
  set fn := toSafeFileStem id ++ ".pdf" with hfn
  have hdata : fn.data = (toSafeFileStem id).data ++ ['.', 'p', 'd', 'f'] := by
    rw [hfn, data_append]
  have hlen : 5 ≤ fn.data.length := by
    rw [hdata, List.length_append]
    have := toSafeFileStem_ne_nil id
    have : 1 ≤ (toSafeFileStem id).data.length := by
      cases hsd : (toSafeFileStem id).data with
      | nil => exact absurd hsd (toSafeFileStem_ne_nil id)
      | cons a t => simp
    simp only [List.length_cons, List.length_nil]
    omega
  have h1 : fn.data ≠ [] := by
    intro h
    rw [h] at hlen
    simp at hlen
  have h2 : fn.data ≠ ['.'] := by
    intro h
    rw [h] at hlen
    simp at hlen
  have h3 : fn.data ≠ ['.', '.'] := by
    intro h
    rw [h] at hlen
    simp at hlen
  have hslash : ∀ c ∈ fn.data, c ≠ '/' := by
    intro c hc
    rw [hdata] at hc
    rcases List.mem_append.mp hc with h | h
    · have hsafe := toSafeFileStem_chars id c h
      intro he
      rw [he] at hsafe
      exact absurd hsafe (by decide)
    · fin_cases h <;> decide
  have hsplit : splitSegs fn.data = [fn.data] := splitSegs_no_slash _ hslash
  have habs : isAbsPath fn = false := by
    unfold isAbsPath
    rcases hsd : (toSafeFileStem id).data with _ | ⟨c0, t⟩
    · exact absurd hsd (toSafeFileStem_ne_nil id)
    · have hc0 : isSafeStemChar c0 = true :=
        toSafeFileStem_chars id c0 (by rw [hsd]; simp)
      have hc0' : ¬ (c0 = '/') := by
        intro he
        rw [he] at hc0
        exact absurd hc0 (by decide)
      rw [hdata, hsd]
      simp [hc0']
  unfold resolveSegs resolveDirSegs
  rw [habs]
  by_cases hd : isAbsPath dir
  · simp only [hd, if_true, if_false, Bool.false_eq_true, List.map_cons,
      List.map_nil, List.flatten]
    rw [hsplit]
    rw [show splitSegs dir.data ++ ([fn.data] ++ []) =
      (splitSegs dir.data ++ []) ++ [fn.data] by simp]
    rw [normalizeAbs_snoc _ _ h1 h2 h3]
  · simp only [hd, if_true, if_false, Bool.false_eq_true, List.map_cons,
      List.map_nil, List.flatten]
    rw [hsplit]
    rw [show splitSegs cwd.data ++ (splitSegs dir.data ++ ([fn.data] ++ [])) =
      (splitSegs cwd.data ++ (splitSegs dir.data ++ [])) ++ [fn.data] by simp]
    rw [normalizeAbs_snoc _ _ h1 h2 h3]

/-- C4: `download` produces exactly one outcome per requested identifier
and never throws: the outcome list has the input's length; the outcome at
each position depends only on that identifier and its own environment (so
one item's failure cannot abort the batch); an identifier normalizing to
the empty string yields `failed`/`"Invalid arXiv ID"` with no binary fetch;
an exception during the fetch/write steps is captured into that item's
outcome as `failed` with the exception's message; an empty ID list yields
an empty outcome list with no network call. -/
theorem download_per_item_outcomes :
    (∀ (cwd dir : String) (ow : Bool) (ids : List String)
        (env : Nat → ItemEnv),
        (download cwd dir ow ids env).length = ids.length) ∧
    (∀ (cwd dir : String) (ow : Bool) (ids : List String)
        (env : Nat → ItemEnv) (i : Nat),
        (download cwd dir ow ids env)[i]? =
          (ids[i]?).map (fun id => (downloadItem cwd dir ow id (env i)).1)) ∧
    (∀ (cwd dir : String) (ow : Bool) (id : String) (env1 : ItemEnv),
        normalizeArxivId id = "" →
        downloadItem cwd dir ow id env1 =
          (⟨"", resolveSegs cwd dir (toSafeFileStem id ++ ".pdf"), .failed,
            some "Invalid arXiv ID"⟩, false)) ∧
    (∀ (cwd dir : String) (ow : Bool) (id : String) (env1 : ItemEnv)
        (m : String),
        normalizeArxivId id ≠ "" → (env1.fileExists && !ow) = false →
        env1.fetch = .error m →
        downloadItem cwd dir ow id env1 =
          (⟨normalizeArxivId id,
            resolveSegs cwd dir (toSafeFileStem id ++ ".pdf"),
            .failed, some m⟩, true)) ∧
    (∀ (cwd dir : String) (ow : Bool) (env : Nat → ItemEnv),
        download cwd dir ow [] env = [] ∧
        downloadNetworkCalls cwd dir ow [] env = 0) := by
  refine ⟨?_, ?_, ?_, ?_, ?_⟩
  · intro cwd dir ow ids env
    simp [download]
  · intro cwd dir ow ids env i
    simp [download, List.getElem?_map, List.getElem?_enum, Option.map_map]
    rfl
  · intro cwd dir ow id env1 h
    simp [downloadItem, h]
  · intro cwd dir ow id env1 m hne hfe hm
    simp [downloadItem, hne, hfe, hm]
  · intro cwd dir ow env
    exact ⟨rfl, rfl⟩

/-- C4 (witness): a two-item batch in which the first identifier is
invalid (empty after normalization) and the second's fetch throws
`"boom"`: both outcomes are present, the first `failed` without a network
call, the second `failed` with the exception's message. -/
theorem download_per_item_outcomes_witness :
    (download "/w" "/out" false ["", "12 34.pdf"]
        (fun _ => ⟨false, .error "boom"⟩)).length = 2 ∧
    (download "/w" "/out" false ["", "12 34.pdf"]
        (fun _ => ⟨false, .error "boom"⟩))[0]? =
      some (downloadItem "/w" "/out" false ""
        (⟨false, .error "boom"⟩ : ItemEnv)).1 ∧
    downloadItem "/w" "/out" false "" (⟨false, .error "boom"⟩ : ItemEnv) =
      (⟨"", resolveSegs "/w" "/out" (toSafeFileStem "" ++ ".pdf"), .failed,
        some "Invalid arXiv ID"⟩, false) ∧
    downloadItem "/w" "/out" false "12 34.pdf"
        (⟨false, .error "boom"⟩ : ItemEnv) =
      (⟨normalizeArxivId "12 34.pdf",
        resolveSegs "/w" "/out" (toSafeFileStem "12 34.pdf" ++ ".pdf"),
        .failed, some "boom"⟩, true) ∧
    (download "/w" "/out" false [] (fun _ => ⟨false, .error "boom"⟩) = [] ∧
      downloadNetworkCalls "/w" "/out" false []
        (fun _ => ⟨false, .error "boom"⟩) = 0) :=
  ⟨download_per_item_outcomes.1 "/w" "/out" false ["", "12 34.pdf"] _,
   download_per_item_outcomes.2.1 "/w" "/out" false ["", "12 34.pdf"] _ 0,
   download_per_item_outcomes.2.2.1 "/w" "/out" false "" _ (by decide),
   download_per_item_outcomes.2.2.2.1 "/w" "/out" false "12 34.pdf" _ "boom"
     (by decide) rfl rfl,
   download_per_item_outcomes.2.2.2.2 "/w" "/out" false _⟩

/-- C8 (counterexample): a disk-cache *write* failure propagates to the
caller: with caching and a cache directory configured, an empty memory
map, a failing disk read, a successful network response, and a failing
`writeDiskCache`, `request` returns the write error instead of the fetched
text — the source awaits `writeDiskCache` outside any try/catch. -/
theorem request_write_failure_propagates :
    (request ⟨true, some "/cache", none⟩
      ⟨fun _ => .error "ENOENT", .error "EACCES: permission denied",
        .ok "<feed/>", 0⟩
      (fun u => u) [] "http://x").1 = .error "EACCES: permission denied" :=
  rfl

/-- C8 (amended): on a cached metadata request (caching enabled): a
memory-map hit by exact URL returns the cached text with no disk or
network access; on a memory miss with a cache directory configured, a
readable disk entry is returned iff, when a TTL is configured, its age
`now - mtime` is at most the TTL (no TTL means it never expires), and a
disk hit is promoted into the memory map without any network call; a disk
*read* failure is treated as a cache miss and never propagated (the
request falls through to the network); a disk *write* failure, however, is
not caught and propagates to the caller. -/
theorem request_cache_read_path :
    (∀ (cfg : CacheConfig) (env : RequestEnv) (hash : String → String)
        (mem : List (String × String)) (url text : String),
        cfg.cache = true → paramsGet mem url = some text →
        request cfg env hash mem url = (.ok text, mem, ⟨0, 0⟩)) ∧
    (∀ (url : String) (hash : String → String)
        (disk : String → Except String DiskEntry) (nowMs : Int)
        (ttlMs : Option Int) (e : DiskEntry),
        disk (hash url) = .ok e →
        (readDiskCache url hash disk nowMs ttlMs = some e.content ↔
          (∀ t, ttlMs = some t → nowMs - e.mtimeMs ≤ t))) ∧
    (∀ (cfg : CacheConfig) (env : RequestEnv) (hash : String → String)
        (mem : List (String × String)) (url c : String),
        cfg.cache = true → cfg.cacheDir.isSome = true →
        paramsGet mem url = none →
        readDiskCache url hash env.disk env.nowMs cfg.cacheTtlMs = some c →
        request cfg env hash mem url = (.ok c, paramsSet mem url c, ⟨1, 0⟩)) ∧
    (∀ (url msg : String) (hash : String → String)
        (disk : String → Except String DiskEntry) (nowMs : Int)
        (ttlMs : Option Int),
        disk (hash url) = .error msg →
        readDiskCache url hash disk nowMs ttlMs = none) ∧
    (∀ (cfg : CacheConfig) (env : RequestEnv) (hash : String → String)
        (mem : List (String × String)) (url msg text : String),
        cfg.cache = true → cfg.cacheDir.isSome = true →
        paramsGet mem url = none → env.disk (hash url) = .error msg →
        env.network = .ok text → env.write = .ok () →
        request cfg env hash mem url =
          (.ok text, paramsSet mem url text, ⟨1, 1⟩)) := by
  refine ⟨?_, ?_, ?_, ?_, ?_⟩
  · intro cfg env hash mem url text h1 h2
    simp [request, h1, h2]
  · intro url hash disk nowMs ttlMs e hd
    unfold readDiskCache
    rw [hd]
    rcases ttlMs with _ | t
    · simp
    · by_cases hlt : t < nowMs - e.mtimeMs
      · simp only [hlt, if_true, if_pos hlt]
        constructor
        · intro h
          exact absurd h (by simp)
        · intro h
          have := h t rfl
          omega
      · simp only [if_neg hlt]
        constructor
        · intro _ t' ht'
          cases ht'
          omega
        · intro _
          trivial
  · intro cfg env hash mem url c h1 hcd h2 hdisk
    simp [request, h1, h2, hcd, hdisk]
  · intro url msg hash disk nowMs ttlMs hd
    unfold readDiskCache
    rw [hd]
  · intro cfg env hash mem url msg text h1 hcd h2 hdisk hnet hwrite
    have hrd : readDiskCache url hash env.disk env.nowMs cfg.cacheTtlMs = none := by
      unfold readDiskCache
      rw [hdisk]
    simp [request, h1, h2, hcd, hrd, hnet, hwrite]

/-- C8 (witness): the read-path facts at a concrete configuration: a
memory hit returns the cached text untouched; a fresh disk entry (age 5 ≤
TTL 10) is returned; a disk hit is promoted with no network call; a disk
read error reads as a miss; a read failure followed by a successful fetch
and write returns the fetched text. -/
theorem request_cache_read_path_witness :
    request ⟨true, some "/c", some 10⟩
        ⟨fun _ => .error "ENOENT", .ok (), .ok "net", 7⟩ (fun u => u)
        [("u", "cached")] "u" = (.ok "cached", [("u", "cached")], ⟨0, 0⟩) ∧
    (readDiskCache "u" (fun u => u) (fun _ => .ok ⟨2, "disk"⟩) 7 (some 10) =
        some "disk" ↔ (∀ t, (some 10 : Option Int) = some t → (7 : Int) - 2 ≤ t)) ∧
    request ⟨true, some "/c", some 10⟩
        ⟨fun _ => .ok ⟨2, "disk"⟩, .ok (), .ok "net", 7⟩ (fun u => u) [] "u" =
      (.ok "disk", paramsSet [] "u" "disk", ⟨1, 0⟩) ∧
    readDiskCache "u" (fun u => u) (fun _ => .error "EIO") 7 (some 10) =
      none ∧
    request ⟨true, some "/c", some 10⟩
        ⟨fun _ => .error "EIO", .ok (), .ok "net", 7⟩ (fun u => u) [] "u" =
      (.ok "net", paramsSet [] "u" "net", ⟨1, 1⟩) :=
  ⟨request_cache_read_path.1 ⟨true, some "/c", some 10⟩
      ⟨fun _ => .error "ENOENT", .ok (), .ok "net", 7⟩ (fun u => u)
      [("u", "cached")] "u" "cached" rfl rfl,
   request_cache_read_path.2.1 "u" (fun u => u) (fun _ => .ok ⟨2, "disk"⟩)
      7 (some 10) ⟨2, "disk"⟩ rfl,
   request_cache_read_path.2.2.1 ⟨true, some "/c", some 10⟩
      ⟨fun _ => .ok ⟨2, "disk"⟩, .ok (), .ok "net", 7⟩ (fun u => u) [] "u"
      "disk" rfl rfl rfl rfl,
   request_cache_read_path.2.2.2.1 "u" "EIO" (fun u => u)
      (fun _ => .error "EIO") 7 (some 10) rfl,
   request_cache_read_path.2.2.2.2 ⟨true, some "/c", some 10⟩
      ⟨fun _ => .error "EIO", .ok (), .ok "net", 7⟩ (fun u => u) [] "u"
      "EIO" "net" rfl rfl rfl rfl rfl rfl⟩

/-- C10: for a non-empty ID list containing an identifier that normalizes
to the empty string, `fetchByIds` throws `"Invalid arXiv ID in id list."`
for every provider — the whole batch fails before any network call, unlike
`download`'s per-item outcome; for the empty ID list it validates the
paging arguments and returns an empty result (`totalResults = 0`,
`itemsPerPage = 0`, no entries) having issued no request. -/
theorem fetchByIds_validation :
    (∀ (cfg : Int) (ids : List String) (opts : SearchOptions)
        (provider : Int → Int → Page) (base : List (String × String)),
        ids ≠ [] → ids.any (fun id => normalizeArxivId id = "") = true →
        fetchByIds cfg ids opts provider base =
          .error "Invalid arXiv ID in id list.") ∧
    (∀ (cfg : Int) (opts : SearchOptions) (provider : Int → Int → Page)
        (base : List (String × String)),
        1 ≤ opts.pageSize.getD cfg → opts.pageSize.getD cfg ≤ MAX_PAGE_SIZE →
        (∀ mr ∈ opts.maxResults, 1 ≤ mr ∧ mr ≤ MAX_TOTAL_RESULTS) →
        0 ≤ opts.start.getD 0 →
        fetchByIds cfg [] opts provider base =
          .ok { query := "", totalResults := 0,
                startIndex := opts.start.getD 0, itemsPerPage := 0,
                entryCount := 0, requests := [] }) := by
  constructor
  · intro cfg ids opts provider base hne hany
    have hmap : (ids.map normalizeArxivId).any (fun id => decide (id = "")) =
        true := by
      simpa [List.any_map, Function.comp] using hany
    simp [fetchByIds, hne, normalizeRequiredIds, hmap]
  · intro cfg opts provider base hp1 hp2 hmr hst
    have h1 : ¬ (opts.pageSize.getD cfg < 1) := by omega
    have h2 : ¬ (MAX_PAGE_SIZE < opts.pageSize.getD cfg) := by omega
    have h4 : ¬ (opts.start.getD 0 < 0) := by omega
    rcases hm : opts.maxResults with _ | mr
    · simp [fetchByIds, h1, h2, h4, hm]
    · have hb := hmr mr (by simp [hm])
      have h5 : ¬ (mr < 1) := by omega
      have h6 : ¬ (MAX_TOTAL_RESULTS < mr) := by omega
      simp [fetchByIds, h1, h2, h4, h5, h6, hm]

/-- C10 (witness): `fetchByIds` at concrete inputs — a batch containing a
whitespace-only identifier fails wholesale with the invalid-id error, and
the empty batch (page size defaulted from the client, explicit
`start = 5`) returns the empty result with no requests. -/
theorem fetchByIds_validation_witness :
    fetchByIds 100 ["1234.5678", "   "] {} (fun s b => ⟨9, s, b, 1⟩) [] =
      .error "Invalid arXiv ID in id list." ∧
    fetchByIds 100 [] { start := some 5 } (fun s b => ⟨9, s, b, 1⟩) [] =
      .ok { query := "", totalResults := 0, startIndex := 5,
            itemsPerPage := 0, entryCount := 0, requests := [] } :=
  ⟨fetchByIds_validation.1 100 ["1234.5678", "   "] {}
      (fun s b => ⟨9, s, b, 1⟩) [] (by decide) (by decide),
   fetchByIds_validation.2 100 { start := some 5 } (fun s b => ⟨9, s, b, 1⟩)
      [] (by decide) (by decide) (by decide) (by decide)⟩

/-- The fuel of the pagination loop is invisible: any two fuel values at
least `remaining.toNat` produce the same result, because each continuing
iteration consumes at least one unit of remaining budget. -/
theorem searchLoopF_fuel_irrel (P : Int → Int → Page) (o : SearchOptions)
    (b : List (String × String)) (fa : Bool) (ps : Int) :
    ∀ (fuel fuel' : Nat) (rs rem : Int) (acc : SearchAcc),
      rem.toNat ≤ fuel → rem.toNat ≤ fuel' →
      searchLoopF P o b fa ps fuel rs rem acc =
        searchLoopF P o b fa ps fuel' rs rem acc := by
  intro fuel
  induction fuel with
  | zero =>
    intro fuel' rs rem acc h0 h1
    rw [searchLoopF, searchLoopF]
    rw [if_pos (by omega), if_pos (by omega)]
  | succ f ih =>
    intro fuel' rs rem acc h0 h1
    by_cases hrem : rem ≤ 0
    · rw [searchLoopF, searchLoopF, if_pos hrem, if_pos hrem]
    · obtain ⟨f', rfl⟩ : ∃ f', fuel' = f' + 1 := ⟨fuel' - 1, by omega⟩
      rw [searchLoopF, searchLoopF]
      rw [if_neg hrem, if_neg hrem]
      dsimp only
      split
      · rfl
      · split
        · rfl
        · split
          · rfl
          · split
            · rfl
            · rename_i hzero _
              exact ih f' _ _ _ (by omega) (by omega)

/-- Once the accumulator holds at least one entry, the pagination loop
never changes `resultStartIndex` again, and only appends to the request
trace. -/
theorem searchLoopF_inv (P : Int → Int → Page) (o : SearchOptions)
    (b : List (String × String)) (fa : Bool) (ps : Int) :
    ∀ (fuel : Nat) (rs rem : Int) (acc r : SearchAcc),
      searchLoopF P o b fa ps fuel rs rem acc = .ok r →
      0 < acc.entryCount →
      r.resultStartIndex = acc.resultStartIndex ∧
        ∃ t, r.requests = acc.requests ++ t := by
  intro fuel
  induction fuel with
  | zero =>
    intro rs rem acc r h hpos
    rw [searchLoopF] at h
    split at h
    · injection h with h
      subst h
      exact ⟨rfl, ⟨[], by simp⟩⟩
    · dsimp only at h
      split at h
      · simp at h
      · have hz : ¬ (acc.entryCount = 0) := by omega
        simp only [if_neg hz] at h
        split at h
        · injection h with h
          subst h
          exact ⟨rfl, ⟨[(rs, min ps rem)], rfl⟩⟩
        · split at h
          · injection h with h
            subst h
            exact ⟨rfl, ⟨[(rs, min ps rem)], rfl⟩⟩
          · split at h
            · injection h with h
              subst h
              exact ⟨rfl, ⟨[(rs, min ps rem)], rfl⟩⟩
            · injection h with h
              subst h
              exact ⟨rfl, ⟨[(rs, min ps rem)], rfl⟩⟩
  | succ f ih =>
    intro rs rem acc r h hpos
    rw [searchLoopF] at h
    split at h
    · injection h with h
      subst h
      exact ⟨rfl, ⟨[], by simp⟩⟩
    · dsimp only at h
      split at h
      · simp at h
      · have hz : ¬ (acc.entryCount = 0) := by omega
        simp only [if_neg hz] at h
        split at h
        · injection h with h
          subst h
          exact ⟨rfl, ⟨[(rs, min ps rem)], rfl⟩⟩
        · split at h
          · injection h with h
            subst h
            exact ⟨rfl, ⟨[(rs, min ps rem)], rfl⟩⟩
          · split at h
            · injection h with h
              subst h
              exact ⟨rfl, ⟨[(rs, min ps rem)], rfl⟩⟩
            · obtain ⟨hsi, t, ht⟩ := ih _ _ _ _ h (by simp; omega)
              refine ⟨by rw [hsi], ⟨(rs, min ps rem) :: t, ?_⟩⟩
              rw [ht]
              simp

/-- Eliminating a successful `search`: the validations passed (in
particular `maxResults ≥ 1`), and the result is assembled from a
successful run of the pagination loop started at offset `start` with the
full `maxResults` budget and an empty accumulator. -/
theorem search_ok_elim (cfg : Int) (opts : SearchOptions)
    (P : Int → Int → Page) (base : List (String × String)) (r : SearchOutcome)
    (h : search cfg opts P base = .ok r) :
    1 ≤ resolvedMaxResults cfg opts ∧
    ∃ acc : SearchAcc,
      searchLoopF P opts base (resolvedFetchAll cfg opts)
        (resolvedPageSize cfg opts) (resolvedMaxResults cfg opts).toNat
        (resolvedStart opts) (resolvedMaxResults cfg opts)
        ⟨0, 0, resolvedStart opts, resolvedPageSize cfg opts, []⟩ = .ok acc ∧
      r.startIndex = acc.resultStartIndex ∧ r.requests = acc.requests := by
  unfold search at h
  dsimp only at h
  split at h
  · simp at h
  · split at h
    · simp at h
    · split at h
      · simp at h
      · split at h
        · simp at h
        · split at h
          · simp at h
          · split at h
            · simp at h
            · rename_i acc heq
              injection h with h
              subst h
              exact ⟨by omega, acc, heq, rfl, rfl⟩

/-- C1: for every valid search request (one `search` accepts), the
returned `startIndex` equals the `startIndex` decoded from the *first*
page fetched, and the first request of the trace is issued at the
caller's offset with the first batch size — later page fetches never
modify it. -/
theorem search_startIndex_first_page :
    ∀ (cfg : Int) (opts : SearchOptions) (P : Int → Int → Page)
      (base : List (String × String)) (r : SearchOutcome),
      search cfg opts P base = .ok r →
      r.requests.head? = some (resolvedStart opts,
        min (resolvedPageSize cfg opts) (resolvedMaxResults cfg opts)) ∧
      r.startIndex = (P (resolvedStart opts)
        (min (resolvedPageSize cfg opts)
          (resolvedMaxResults cfg opts))).startIndex := by
  intro cfg opts P base r h
  obtain ⟨hmr, acc, hloop, hsi, hreq⟩ := search_ok_elim cfg opts P base r h
  obtain ⟨k, hk⟩ : ∃ k, (resolvedMaxResults cfg opts).toNat = k + 1 :=
    ⟨(resolvedMaxResults cfg opts).toNat - 1, by omega⟩
  rw [hk, searchLoopF] at hloop
  rw [if_neg (by omega)] at hloop
  dsimp only at hloop
  simp only [reduceIte] at hloop
  split at hloop
  · simp at hloop
  · split at hloop
    · injection hloop with hl
      subst hl
      exact ⟨by rw [hreq]; rfl, by rw [hsi]⟩
    · split at hloop
      · injection hloop with hl
        subst hl
        exact ⟨by rw [hreq]; rfl, by rw [hsi]⟩
      · split at hloop
        · injection hloop with hl
          subst hl
          exact ⟨by rw [hreq]; rfl, by rw [hsi]⟩
        · rename_i hzero _
          obtain ⟨hsi2, t, ht⟩ :=
            searchLoopF_inv P opts base (resolvedFetchAll cfg opts)
              (resolvedPageSize cfg opts) k _ _ _ _ hloop
              (by dsimp only; omega)
          constructor
          · rw [hreq, ht]
            rfl
          · rw [hsi, hsi2]

/-- C1 (witness): a concrete two-page run (`pageSize = 2`,
`maxResults = 4`, provider decoding `startIndex = s + 7`): the result's
`startIndex` is 7, the value decoded from the first page, not the 9 of
the second page. -/
theorem search_startIndex_first_page_witness :
    search 100 { searchQuery := some "q", pageSize := some 2, maxResults := some 4 }
      (fun s b => ⟨100, s + 7, b, b.toNat⟩) [] =
      .ok { query := "q", totalResults := 100, startIndex := 7,
            itemsPerPage := 2, entryCount := 4,
            requests := [(0, 2), (2, 2)] } ∧
    ({ query := "q", totalResults := 100, startIndex := 7,
       itemsPerPage := 2, entryCount := 4,
       requests := [(0, 2), (2, 2)] } : SearchOutcome).requests.head? =
      some (resolvedStart { searchQuery := some "q", pageSize := some 2, maxResults := some 4 },
        min (resolvedPageSize 100 { searchQuery := some "q", pageSize := some 2, maxResults := some 4 })
          (resolvedMaxResults 100 { searchQuery := some "q", pageSize := some 2, maxResults := some 4 })) ∧
    ({ query := "q", totalResults := 100, startIndex := 7,
       itemsPerPage := 2, entryCount := 4,
       requests := [(0, 2), (2, 2)] } : SearchOutcome).startIndex =
      ((fun s b => (⟨100, s + 7, b, b.toNat⟩ : Page))
          (resolvedStart { searchQuery := some "q", pageSize := some 2, maxResults := some 4 })
          (min (resolvedPageSize 100 { searchQuery := some "q", pageSize := some 2, maxResults := some 4 })
            (resolvedMaxResults 100 { searchQuery := some "q", pageSize := some 2, maxResults := some 4 }))).startIndex :=
  ⟨rfl,
   (search_startIndex_first_page 100
      { searchQuery := some "q", pageSize := some 2, maxResults := some 4 }
      (fun s b => ⟨100, s + 7, b, b.toNat⟩) []
      { query := "q", totalResults := 100, startIndex := 7,
        itemsPerPage := 2, entryCount := 4,
        requests := [(0, 2), (2, 2)] } (by rfl)).1,
   (search_startIndex_first_page 100
      { searchQuery := some "q", pageSize := some 2, maxResults := some 4 }
      (fun s b => ⟨100, s + 7, b, b.toNat⟩) []
      { query := "q", totalResults := 100, startIndex := 7,
        itemsPerPage := 2, entryCount := 4,
        requests := [(0, 2), (2, 2)] } (by rfl)).2⟩

/-- Every successful run of the pagination loop with a positive budget
produces a well-formed request trace: requests continue exactly while
`pageContinues` holds and stop at the first page where it fails. -/
theorem searchLoopF_trace (P : Int → Int → Page) (o : SearchOptions)
    (b : List (String × String)) (fa : Bool) (ps : Int) :
    ∀ (fuel : Nat) (rs rem : Int) (acc r : SearchAcc),
      rem.toNat ≤ fuel → 0 < rem →
      searchLoopF P o b fa ps fuel rs rem acc = .ok r →
      ∃ t, r.requests = acc.requests ++ t ∧ ReqTrace P fa ps rs rem t := by
  intro fuel
  induction fuel with
  | zero =>
    intro rs rem acc r hfuel hpos h
    omega
  | succ f ih =>
    intro rs rem acc r hfuel hpos h
    rw [searchLoopF] at h
    rw [if_neg (by omega)] at h
    dsimp only at h
    split at h
    · simp at h
    · split at h
      · rename_i hfa
        injection h with h
        subst h
        refine ⟨[(rs, min ps rem)], ?_, ?_⟩
        · by_cases hz : acc.entryCount = 0 <;> simp [hz]
        · refine ReqTrace.last rs rem hpos ?_
          intro hc
          rw [hc.1] at hfa
          simp at hfa
      · split at h
        · rename_i hzero
          injection h with h
          subst h
          refine ⟨[(rs, min ps rem)], ?_, ?_⟩
          · by_cases hz : acc.entryCount = 0 <;> simp [hz]
          · refine ReqTrace.last rs rem hpos ?_
            intro hc
            exact absurd hzero hc.2.1
        · split at h
          · rename_i hfit
            injection h with h
            subst h
            refine ⟨[(rs, min ps rem)], ?_, ?_⟩
            · by_cases hz : acc.entryCount = 0 <;> simp [hz]
            · refine ReqTrace.last rs rem hpos ?_
              intro hc
              have := hc.2.2.1
              omega
          · rename_i hfa hzero hfit
            by_cases hb : 0 < rem - (P rs (min ps rem)).entryCount
            · obtain ⟨t', ht', htr⟩ := ih _ _ _ _ (by omega) hb h
              refine ⟨(rs, min ps rem) :: t', ?_, ?_⟩
              · rw [ht']
                by_cases hz : acc.entryCount = 0 <;> simp [hz]
              · refine ReqTrace.step rs rem t' hpos ?_ htr
                refine ⟨by simpa using hfa, hzero, by omega, hb⟩
            · rw [searchLoopF] at h
              rw [if_pos (by omega)] at h
              injection h with h
              subst h
              refine ⟨[(rs, min ps rem)], ?_, ?_⟩
              · by_cases hz : acc.entryCount = 0 <;> simp [hz]
              · refine ReqTrace.last rs rem hpos ?_
                intro hc
                exact absurd hc.2.2.2 hb

/-- C2 (amended): the request trace of every successful `search` run is
well-formed — after each page the loop issues another request iff
pagination is enabled, the page was non-empty,
`requestStartIndex + lastPageEntryCount < totalResults`, *and* the
caller's `maxResults` budget is not yet exhausted; it stops exactly when
one of the four negations holds.  In particular, with provider
`totalResults = 3` and `pageSize = 2`, a call with `maxResults = 10`
issues exactly 2 requests. -/
theorem search_stop_conditions :
    (∀ (cfg : Int) (opts : SearchOptions) (P : Int → Int → Page)
        (base : List (String × String)) (r : SearchOutcome),
        search cfg opts P base = .ok r →
        ReqTrace P (resolvedFetchAll cfg opts) (resolvedPageSize cfg opts)
          (resolvedStart opts) (resolvedMaxResults cfg opts) r.requests) ∧
    (search 100 { searchQuery := some "q", pageSize := some 2,
                  maxResults := some 10 }
        (fun s b => ⟨3, s, b, (min b (3 - s)).toNat⟩) [] =
      .ok { query := "q", totalResults := 3, startIndex := 0,
            itemsPerPage := 2, entryCount := 3,
            requests := [(0, 2), (2, 2)] }) := by
  constructor
  · intro cfg opts P base r h
    obtain ⟨hmr, acc, hloop, hsi, hreq⟩ := search_ok_elim cfg opts P base r h
    obtain ⟨t, ht, htr⟩ :=
      searchLoopF_trace P opts base (resolvedFetchAll cfg opts)
        (resolvedPageSize cfg opts) (resolvedMaxResults cfg opts).toNat
        (resolvedStart opts) (resolvedMaxResults cfg opts) _ _
        (Nat.le_refl _) (by omega) hloop
    rw [hreq, ht]
    simpa using htr
  · rfl

/-- C2 (witness): the well-formed-trace property instantiated at the
spec's concrete scenario (`totalResults = 3`, `pageSize = 2`,
`maxResults = 10`), whose trace is exactly the two requests
`[(0, 2), (2, 2)]`. -/
theorem search_stop_conditions_witness :
    ReqTrace (fun s b => ⟨3, s, b, (min b (3 - s)).toNat⟩)
      (resolvedFetchAll 100 { searchQuery := some "q", pageSize := some 2, maxResults := some 10 })
      (resolvedPageSize 100 { searchQuery := some "q", pageSize := some 2, maxResults := some 10 })
      (resolvedStart { searchQuery := some "q", pageSize := some 2, maxResults := some 10 })
      (resolvedMaxResults 100 { searchQuery := some "q", pageSize := some 2, maxResults := some 10 })
      [(0, 2), (2, 2)] :=
  search_stop_conditions.1 100
    { searchQuery := some "q", pageSize := some 2, maxResults := some 10 }
    (fun s b => ⟨3, s, b, (min b (3 - s)).toNat⟩) []
    { query := "q", totalResults := 3, startIndex := 0, itemsPerPage := 2,
      entryCount := 3, requests := [(0, 2), (2, 2)] }
    (by rfl)

/-- C2 (counterexample): a run that stops although none of the three stop
conditions stated by the claim holds: with provider `totalResults = 100`
always returning full pages, `pageSize = 2`, `maxResults = 4`, the loop
issues `[(0, 2), (2, 2)]` and stops (budget exhausted) even though
pagination is enabled, the last page returned 2 entries, and
`2 + 2 = 4 < 100` — the claim's list of stop conditions omits budget
exhaustion. -/
theorem search_stops_without_spec_condition :
    search 100 { searchQuery := some "q", pageSize := some 2,
                 maxResults := some 4 }
        (fun s b => ⟨100, s, b, b.toNat⟩) [] =
      .ok { query := "q", totalResults := 100, startIndex := 0,
            itemsPerPage := 2, entryCount := 4,
            requests := [(0, 2), (2, 2)] } ∧
    resolvedFetchAll 100 { searchQuery := some "q", pageSize := some 2,
                           maxResults := some 4 } = true ∧
    specStopCondition true 2
      ((fun s b => (⟨100, s, b, b.toNat⟩ : Page)) 2 2) = false :=
  ⟨rfl, rfl, rfl⟩

end RSearch
